import Mathlib

/-!
JsSpim driver (`spim.cpp`): execution control and state export.

A shallow embedding of the control operations `step`, `run`, `conti` and of the
exporters `getSpecialRegVals`, `getFloatRegVals`, `getDoubleRegVals`, `getSegment`
of `src/spim/spim.cpp`.

The simulator core (`run_program`, `starting_address`, `format_insts`) lives in other
translation units; it is taken as a parameter (`Engine`), so every theorem below holds
for every engine.  Global simulator state becomes an explicit `Machine` value, and the
effects the driver itself performs (engine calls and `printf`s) are returned as a list
of `Event`s in program order.
-/

namespace JsSpim

/-- Simulated machine addresses (`mem_addr`), an unsigned 32-bit quantity carried as a
natural number. -/
abbrev mem_addr := Nat

/-- The global simulator state the driver reads: the registers named in `spim.cpp`
(32-bit words, carried as natural numbers), the floating-point bank `FPR` as bytes
indexed by byte offset, simulated memory, the breakpoint set, and whatever further private
state the engine keeps (`priv`). -/
structure Machine (ε : Type) where
  PC : mem_addr
  R : Nat → Nat
  FPR : Nat → Nat
  CP0_EPC : Nat
  CP0_Cause : Nat
  CP0_BadVAddr : Nat
  CP0_Status : Nat
  HI : Nat
  LO : Nat
  FIR : Nat
  FCSR : Nat
  FCCR : Nat
  FEXR : Nat
  FENR : Nat
  mem : Nat → Nat
  bkpts : List mem_addr
  priv : ε

/-- The reusable string stream `ss` (type `str_stream`), reduced to its current text. -/
structure str_stream where
  buf : List Char
deriving DecidableEq

/-- Modelled from the spec: `ss_clear` (string-stream.cpp is not part of the sources);
the format buffer "must be cleared before each new export", so clearing leaves the
stream without text. -/
def ss_clear (_ss : str_stream) : str_stream := ⟨[]⟩

/-- Modelled from the spec: `ss_to_string` (string-stream.cpp is not part of the
sources); it hands back the text accumulated in the stream. -/
def ss_to_string (ss : str_stream) : String := String.mk ss.buf

/-- The simulator core used by the driver.  `run_program pc steps display cont_bkpt`
returns the pair (function result "breakpoint encountered", value stored through the
`continuable` out-parameter) together with the new machine state; `starting_address`
may update engine state; `DEFAULT_RUN_STEPS` is the macro of `spim.h`;
`format_insts` appends a listing of `[from, to)` to a string stream. -/
structure Engine (ε : Type) where
  starting_address : Machine ε → mem_addr × Machine ε
  run_program : mem_addr → Nat → Bool → Bool → Machine ε → (Bool × Bool) × Machine ε
  DEFAULT_RUN_STEPS : Nat
  format_insts : Machine ε → str_stream → mem_addr → mem_addr → str_stream

/-- Effects performed by the driver, in program order. -/
inductive Event where
  | starting_address : Event
  | run_program (pc : mem_addr) (steps : Nat) (display cont_bkpt : Bool) : Event
  | printf (text : String) : Event
deriving DecidableEq

/-- Whether an event is a call of `run_program`. -/
def Event.isRun : Event → Bool
  | .run_program _ _ _ _ => true
  | _ => false

/-- The engine invocations (`run_program` calls) of a trace. -/
def invocations (t : List Event) : List Event := t.filter Event.isRun

/-- The texts written by the driver with `printf`, in order. -/
def printed : List Event → List String
  | [] => []
  | .printf text :: t => text :: printed t
  | _ :: t => printed t

/-- The conversion `%08x` of `printf` applied to a 32-bit unsigned argument: lower-case
hexadecimal digits, left-padded with `0` to a minimum width of 8. -/
def fmt_08x (v : Nat) : List Char :=
  let ds := Nat.toDigits 16 (v % 4294967296)
  List.replicate (8 - ds.length) '0' ++ ds

/-- The text of `printf("Breakpoint encountered at 0x%08x\n", PC)`. -/
def bp_message (pc : mem_addr) : String :=
  "Breakpoint encountered at 0x" ++ String.mk (fmt_08x pc) ++ "\n"

/-- Result of a driver operation: returned value, machine state afterwards and the
effects performed. -/
structure Outcome (α : Type) (ε : Type) where
  ret : α
  m : Machine ε
  trace : List Event

/-- The common tail of `step`, `run` and `conti`: the `printf` of the breakpoint
message guarded by the result of `run_program`. -/
def report_bp {ε : Type} (hit : Bool) (m : Machine ε) : List Event :=
  if hit then [Event.printf (bp_message m.PC)] else []

/-- The initialiser `PC == 0 ? starting_address() : PC` of `step` (spim.cpp line 64):
its value, the machine state after evaluating it, and the effects of evaluating it. -/
def step_addr {ε : Type} (E : Engine ε) (s : Machine ε) :
    (mem_addr × Machine ε) × List Event :=
  if s.PC = 0 then (E.starting_address s, [Event.starting_address]) else ((s.PC, s), [])

/-- Source function `bool step()` (spim.cpp lines 63-74). -/
def step {ε : Type} (E : Engine ε) (s : Machine ε) : Outcome Bool ε :=
  -- mem_addr addr = PC == 0 ? starting_address() : PC;
  let a := step_addr E s
  let addr := a.1.1
  -- if (run_program(addr, 1, false, true, &continuable)) printf(...PC);
  let r := E.run_program addr 1 false true a.1.2
  let continuable := r.1.2
  let t := a.2 ++ [Event.run_program addr 1 false true] ++ report_bp r.1.1 r.2
  -- if (!continuable) printf("\n");
  let t := if !continuable then t ++ [Event.printf "\n"] else t
  -- return continuable;
  ⟨continuable, r.2, t⟩

/-- Source function `void run()` (spim.cpp lines 78-83). -/
def run {ε : Type} (E : Engine ε) (s : Machine ε) : Outcome Unit ε :=
  let a := E.starting_address s
  let r := E.run_program a.1 E.DEFAULT_RUN_STEPS false false a.2
  ⟨(), r.2,
    [Event.starting_address, Event.run_program a.1 E.DEFAULT_RUN_STEPS false false]
      ++ report_bp r.1.1 r.2 ++ [Event.printf "\n"]⟩

/-- Source function `void conti()` (spim.cpp lines 87-94). -/
def conti {ε : Type} (E : Engine ε) (s : Machine ε) : Outcome Unit ε :=
  -- if (PC == 0) return;
  if s.PC = 0 then ⟨(), s, []⟩
  else
    let r := E.run_program s.PC E.DEFAULT_RUN_STEPS false true s
    ⟨(), r.2,
      [Event.run_program s.PC E.DEFAULT_RUN_STEPS false true]
        ++ report_bp r.1.1 r.2 ++ [Event.printf "\n"]⟩

/-- The view `typed_memory_view(n, p)`: the `n` consecutive elements found at `p`. -/
def typed_memory_view {α : Type} (n : Nat) (p : Nat → α) : List α :=
  (List.range n).map p

/-- The cast `(float *) p`: element `k` is made of the 4 bytes at byte offset `4 * k`. -/
def as_float (bytes : Nat → Nat) (k : Nat) : List Nat :=
  (List.range 4).map (fun t => bytes (4 * k + t))

/-- The cast `(double *) p`: element `k` is made of the 8 bytes at byte offset `8 * k`. -/
def as_double (bytes : Nat → Nat) (k : Nat) : List Nat :=
  (List.range 8).map (fun t => bytes (8 * k + t))

/-- Source function `val getFloatRegVals()` (spim.cpp line 108): 32 single-precision
elements over `FPR`. -/
def getFloatRegVals {ε : Type} (s : Machine ε) : List (List Nat) :=
  typed_memory_view 32 (as_float s.FPR)

/-- Source function `val getDoubleRegVals()` (spim.cpp line 111): 16 double-precision
elements over `FPR`. -/
def getDoubleRegVals {ε : Type} (s : Machine ε) : List (List Nat) :=
  typed_memory_view 16 (as_double s.FPR)

/-- Storing through a memory view of `n` elements of `w` bytes each: element `k` receives
the bytes `val`; an index outside the view stores nothing. -/
def view_store (n w k : Nat) (val : List Nat) (bytes : Nat → Nat) : Nat → Nat :=
  if k < n then
    fun a => if w * k ≤ a ∧ a < w * k + w then val.getD (a - w * k) 0 else bytes a
  else bytes

/-- The machine after a store of the 4 bytes `val` to element `k` of the view returned by
`getFloatRegVals`. -/
def store_float {ε : Type} (s : Machine ε) (k : Nat) (val : List Nat) : Machine ε :=
  { s with FPR := view_store 32 4 k val s.FPR }

/-- The machine after a store of the 8 bytes `val` to element `k` of the view returned by
`getDoubleRegVals`. -/
def store_double {ε : Type} (s : Machine ε) (k : Nat) (val : List Nat) : Machine ε :=
  { s with FPR := view_store 16 8 k val s.FPR }

/-- The array assignment `arr[i] = v`. -/
def assign (arr : Nat → Nat) (i v : Nat) : Nat → Nat :=
  fun k => if k = i then v else arr k

/-- Source function `val getSpecialRegVals()` (spim.cpp lines 114-130).  The argument
`specialRegs` is the function-local static array as the previous call left it; the
result is the returned view and the array afterwards.  Values are carried as 32-bit
patterns: an `int` slot holds the same 32 bits as the register assigned to it. -/
def getSpecialRegVals {ε : Type} (s : Machine ε) (specialRegs : Nat → Nat) :
    List Nat × (Nat → Nat) :=
  let specialRegs := assign specialRegs 0 s.PC
  let specialRegs := assign specialRegs 1 s.CP0_EPC
  let specialRegs := assign specialRegs 2 s.CP0_Cause
  let specialRegs := assign specialRegs 3 s.CP0_BadVAddr
  let specialRegs := assign specialRegs 4 s.CP0_Status
  let specialRegs := assign specialRegs 5 s.HI
  let specialRegs := assign specialRegs 6 s.LO
  let specialRegs := assign specialRegs 7 s.FIR
  let specialRegs := assign specialRegs 8 s.FCSR
  let specialRegs := assign specialRegs 9 s.FCCR
  let specialRegs := assign specialRegs 10 s.FEXR
  let specialRegs := assign specialRegs 11 s.FENR
  (typed_memory_view 12 specialRegs, specialRegs)

/-- Source function `std::string getSegment(mem_addr from, mem_addr to)` (spim.cpp lines
133-138).  The argument `ss` is the file-level static stream as earlier calls left it;
the result is the returned string and the stream afterwards. -/
def getSegment {ε : Type} (E : Engine ε) (s : Machine ε) (ss : str_stream)
    (from_ to_ : mem_addr) : String × str_stream :=
  let ss := ss_clear ss
  let ss := E.format_insts s ss from_ to_
  (ss_to_string ss, ss)

/-- The static stream after a sequence of earlier exports, each given by the machine
state at the time and the requested range. -/
def after_exports {ε : Type} (E : Engine ε) (ss : str_stream) :
    List (Machine ε × mem_addr × mem_addr) → str_stream
  | [] => ss
  | (s, from_, to_) :: rest => after_exports E (getSegment E s ss from_ to_).2 rest

/-- Modelled from the spec: `starting_address` (defined outside `spim.cpp`, not part of
the sources) returns "the program's configured entry point".  The address `entry` is
that configured entry point of the engine `E` when `starting_address()` returns it from
every machine state, whatever `PC` and the other registers hold. -/
def configured_entry {ε : Type} (E : Engine ε) (entry : mem_addr) : Prop :=
  ∀ s : Machine ε, (E.starting_address s).1 = entry

/-- The engine `E` with the value it stores through `continuable` passed through `f`;
everything else is unchanged. -/
def Engine.mapFlag {ε : Type} (f : Bool → Bool) (E : Engine ε) : Engine ε :=
  { E with run_program := fun pc steps display cont_bkpt s =>
      let r := E.run_program pc steps display cont_bkpt s
      ((r.1.1, f r.1.2), r.2) }

/-- Reading back a lower-case hexadecimal digit. -/
def hexDigitVal (c : Char) : Option Nat :=
  if 48 ≤ c.toNat ∧ c.toNat ≤ 57 then some (c.toNat - 48)
  else if 97 ≤ c.toNat ∧ c.toNat ≤ 102 then some (c.toNat - 87)
  else none

/-- Reading back a string of hexadecimal digits, most significant first, on top of the
accumulator `acc`; `none` if some character is not a hexadecimal digit. -/
def hexVal : List Char → Nat → Option Nat
  | [], acc => some acc
  | c :: cs, acc =>
    match hexDigitVal c with
    | some d => hexVal cs (acc * 16 + d)
    | none => none

/-! ### Concrete machines and engines used to exercise the definitions -/

/-- A freshly initialised machine: every register zero, `PC` still the sentinel. -/
def fresh : Machine Unit :=
  { PC := 0, R := fun _ => 0, FPR := fun _ => 0, CP0_EPC := 0, CP0_Cause := 0,
    CP0_BadVAddr := 0, CP0_Status := 0, HI := 0, LO := 0, FIR := 0, FCSR := 0, FCCR := 0,
    FEXR := 0, FENR := 0, mem := fun _ => 0, bkpts := [], priv := () }

/-- A small engine: the entry address is `0x00400000`; every invocation reports
`hit` and `continuable` as given and leaves `PC` at the start address plus `adv`;
the formatter appends one line with the address of each word of the range. -/
def toyEngine (hit continuable : Bool) (adv : Nat) : Engine Unit :=
  { starting_address := fun s => (4194304, s)
    run_program := fun pc _ _ _ s => ((hit, continuable), { s with PC := pc + adv })
    DEFAULT_RUN_STEPS := 2147483647
    format_insts := fun _ ss from_ to_ =>
      ⟨ss.buf ++ (List.range ((to_ - from_) / 4)).flatMap
        (fun k => fmt_08x (from_ + 4 * k) ++ ['\n'])⟩ }

/-- An engine that reports a breakpoint at the address it is started at and leaves `PC`
there, still continuable. -/
def bpEngine : Engine Unit := toyEngine true true 0

/-- Four bytes to store through the single view. -/
def fv4 : List Nat := [1, 2, 3, 4]

/-- The fresh machine after some execution: `PC` stands inside the text segment. -/
def paused : Machine Unit := { fresh with PC := 4194316 }

/-- A machine whose twelve special registers hold the distinct values 100 to 111. -/
def specimen : Machine Unit :=
  { PC := 100, R := fun _ => 0, FPR := fun _ => 0, CP0_EPC := 101, CP0_Cause := 102,
    CP0_BadVAddr := 103, CP0_Status := 104, HI := 105, LO := 106, FIR := 107, FCSR := 108,
    FCCR := 109, FEXR := 110, FENR := 111, mem := fun _ => 0, bkpts := [], priv := () }

/-- Eight bytes to store through the double view. -/
def dv8 : List Nat := [11, 12, 13, 14, 15, 16, 17, 18]

/-- A machine whose floating-point bank holds the byte `a` at byte offset `a`. -/
def ramp : Machine Unit := { fresh with FPR := fun a => a }

/-! ### Traces -/

theorem invocations_report_bp {ε : Type} (hit : Bool) (m : Machine ε) :
    invocations (report_bp hit m) = [] := by
  cases hit <;> rfl

theorem invocations_nil : invocations [] = [] := rfl

theorem invocations_cons_run (pc : mem_addr) (n : Nat) (d c : Bool) (t : List Event) :
    invocations (Event.run_program pc n d c :: t)
      = Event.run_program pc n d c :: invocations t := rfl

theorem invocations_cons_sa (t : List Event) :
    invocations (Event.starting_address :: t) = invocations t := rfl

theorem invocations_cons_printf (x : String) (t : List Event) :
    invocations (Event.printf x :: t) = invocations t := rfl

theorem invocations_append (t u : List Event) :
    invocations (t ++ u) = invocations t ++ invocations u := by
  simp [invocations]

theorem printed_append (t u : List Event) : printed (t ++ u) = printed t ++ printed u := by
  induction t with
  | nil => rfl
  | cons e t ih => cases e <;> simp [printed, ih]

theorem printed_report_bp {ε : Type} (hit : Bool) (m : Machine ε) :
    printed (report_bp hit m) = if hit then [bp_message m.PC] else [] := by
  cases hit <;> rfl

/-! ### The three control operations -/

/-- C1: `step()` makes exactly one `run_program` call; its start address is `PC` when `PC`
is not 0 and the value of `starting_address()` when `PC` is 0, its step bound is 1; the
sentinel value of `PC` is never itself used as the start address. -/
theorem step_invokes_engine_once {ε : Type} (E : Engine ε) (s : Machine ε) :
    ∃ addr : mem_addr,
      invocations (step E s).trace = [Event.run_program addr 1 false true] ∧
      addr = (if s.PC = 0 then (E.starting_address s).1 else s.PC) ∧
      ((s.PC = 0 ∧ addr = (E.starting_address s).1) ∨
        (s.PC ≠ 0 ∧ addr = s.PC ∧ addr ≠ 0)) := by
  refine ⟨if s.PC = 0 then (E.starting_address s).1 else s.PC, ?_, rfl, ?_⟩
  · by_cases h : s.PC = 0
    · cases hc : (E.run_program (E.starting_address s).1 1 false true
          (E.starting_address s).2).1.2 <;>
        simp [step, step_addr, h, hc, invocations_append, invocations_report_bp, invocations_nil,
          invocations_cons_run, invocations_cons_sa, invocations_cons_printf]
    · cases hc : (E.run_program s.PC 1 false true s).1.2 <;>
        simp [step, step_addr, h, hc, invocations_append, invocations_report_bp, invocations_nil,
          invocations_cons_run, invocations_cons_sa, invocations_cons_printf]
  · by_cases h : s.PC = 0
    · simp [h]
    · simp [h]

/-- C2: when `PC` is the sentinel 0, `conti()` calls nothing in the engine, prints nothing
and hands the machine state back exactly as it was (registers, memory, `PC`, breakpoints). -/
theorem conti_sentinel_noop {ε : Type} (E : Engine ε) (s : Machine ε) (h : s.PC = 0) :
    (conti E s).trace = [] ∧ invocations (conti E s).trace = [] ∧
      printed (conti E s).trace = [] ∧ (conti E s).m = s := by
  simp [conti, h, invocations, printed]

/-- C3: `run()` makes exactly one `run_program` call, started at the value of
`starting_address()`; with `entry` the configured entry address that
`starting_address()` returns, that call starts at `entry` from every state, also from a
paused one whose `PC` is not 0, where `conti()` makes exactly one call started at `PC`;
both pass the bound `DEFAULT_RUN_STEPS`, and both leave the state their call produced. -/
theorem run_conti_invoke_engine_once {ε : Type} (E : Engine ε) (entry : mem_addr)
    (s s' : Machine ε) (hentry : configured_entry E entry) (h : s'.PC ≠ 0) :
    invocations (run E s).trace
        = [Event.run_program (E.starting_address s).1 E.DEFAULT_RUN_STEPS false false] ∧
      invocations (run E s).trace
        = [Event.run_program entry E.DEFAULT_RUN_STEPS false false] ∧
      (run E s).m
        = (E.run_program entry E.DEFAULT_RUN_STEPS false false (E.starting_address s).2).2 ∧
      invocations (run E s').trace
        = [Event.run_program entry E.DEFAULT_RUN_STEPS false false] ∧
      (run E s').m
        = (E.run_program entry E.DEFAULT_RUN_STEPS false false
            (E.starting_address s').2).2 ∧
      invocations (conti E s').trace
        = [Event.run_program s'.PC E.DEFAULT_RUN_STEPS false true] ∧
      (conti E s').m = (E.run_program s'.PC E.DEFAULT_RUN_STEPS false true s').2 := by
  have hrun : ∀ t : Machine ε, invocations (run E t).trace
      = [Event.run_program (E.starting_address t).1 E.DEFAULT_RUN_STEPS false false] := by
    intro t
    simp [run, invocations_append, invocations_report_bp, invocations_nil,
      invocations_cons_run, invocations_cons_sa, invocations_cons_printf]
  have hm : ∀ t : Machine ε, (run E t).m
      = (E.run_program (E.starting_address t).1 E.DEFAULT_RUN_STEPS false false
          (E.starting_address t).2).2 := fun _ => rfl
  refine ⟨hrun s, ?_, ?_, ?_, ?_, ?_, ?_⟩
  · rw [hrun s, hentry s]
  · rw [hm s, hentry s]
  · rw [hrun s', hentry s']
  · rw [hm s', hentry s']
  · simp [conti, h, invocations_append, invocations_report_bp, invocations_nil,
      invocations_cons_run, invocations_cons_sa, invocations_cons_printf]
  · simp [conti, h]

/-! ### The `%08x` conversion -/

theorem hexDigitVal_digitChar (d : Nat) (h : d < 16) :
    hexDigitVal (Nat.digitChar d) = some d := by
  interval_cases d <;> rfl

theorem hexVal_toDigitsCore (fuel : Nat) :
    ∀ (n : Nat) (ds : List Char), n < fuel →
      hexVal (Nat.toDigitsCore 16 fuel n ds) 0 = hexVal ds n := by
  induction fuel with
  | zero => intro n ds h; omega
  | succ fuel ih =>
    intro n ds h
    unfold Nat.toDigitsCore
    by_cases h0 : n / 16 = 0
    · have hn : n % 16 = n := by omega
      have hd : hexDigitVal (Nat.digitChar n) = some n :=
        hexDigitVal_digitChar n (by omega)
      simp [h0, hexVal, hn, hd]
    · have hlt : n / 16 < fuel := by omega
      simp only [h0, if_false]
      rw [ih (n / 16) _ hlt]
      have hn : n / 16 * 16 + n % 16 = n := by omega
      simp [hexVal, hexDigitVal_digitChar (n % 16) (Nat.mod_lt _ (by norm_num)), hn]

theorem hexVal_zeros (k : Nat) (l : List Char) :
    hexVal (List.replicate k '0' ++ l) 0 = hexVal l 0 := by
  induction k with
  | zero => rfl
  | succ k ih =>
    have h0 : hexDigitVal '0' = some 0 := rfl
    simp [List.replicate_succ, hexVal, h0, ih]

theorem toDigits_length_le (n : Nat) (h : n < 4294967296) :
    (Nat.toDigits 16 n).length ≤ 8 :=
  Nat.toDigitsCore_length 16 (by norm_num) (n + 1) n 8 (by norm_num; exact h) (by norm_num)

theorem fmt_08x_length (v : Nat) : (fmt_08x v).length = 8 := by
  have h := toDigits_length_le (v % 4294967296) (Nat.mod_lt _ (by norm_num))
  simp only [fmt_08x, List.length_append, List.length_replicate]
  omega

theorem fmt_08x_value (v : Nat) : hexVal (fmt_08x v) 0 = some (v % 4294967296) := by
  simp only [fmt_08x, hexVal_zeros]
  exact hexVal_toDigitsCore _ _ [] (Nat.lt_succ_self _)

theorem bp_message_ne_newline (pc : mem_addr) : bp_message pc ≠ "\n" := by
  intro h
  have h' := congrArg String.data h
  simp [bp_message, String.data_append] at h'

/-! ### What the three operations print and return -/

theorem step_printed {ε : Type} (E : Engine ε) (s : Machine ε) (hit c : Bool)
    (p : Machine ε)
    (h : E.run_program (step_addr E s).1.1 1 false true (step_addr E s).1.2 = ((hit, c), p)) :
    printed (step E s).trace
      = (if hit then [bp_message p.PC] else []) ++ (if c then [] else ["\n"]) := by
  have ha : printed (step_addr E s).2 = [] := by
    unfold step_addr; split <;> rfl
  cases c <;> simp [step, h, printed_append, printed_report_bp, ha, printed]

theorem run_printed {ε : Type} (E : Engine ε) (s : Machine ε) (hit c : Bool)
    (p : Machine ε)
    (h : E.run_program (E.starting_address s).1 E.DEFAULT_RUN_STEPS false false
      (E.starting_address s).2 = ((hit, c), p)) :
    printed (run E s).trace = (if hit then [bp_message p.PC] else []) ++ ["\n"] := by
  simp [run, h, printed_append, printed_report_bp, printed]

theorem conti_printed {ε : Type} (E : Engine ε) (s : Machine ε) (hpc : s.PC ≠ 0)
    (hit c : Bool) (p : Machine ε)
    (h : E.run_program s.PC E.DEFAULT_RUN_STEPS false true s = ((hit, c), p)) :
    printed (conti E s).trace = (if hit then [bp_message p.PC] else []) ++ ["\n"] := by
  simp [conti, hpc, h, printed_append, printed_report_bp, printed]

/-- C4, as the code has it: `step()` returns exactly the flag the engine stored through
`continuable`; `run()` and `conti()` are `void` and drop the flag: whatever the engine
stores there, their result, the state they leave and what they print are the same. -/
theorem step_returns_flag_run_conti_drop_it {ε : Type} (E : Engine ε) (s : Machine ε)
    (hit c : Bool) (p : Machine ε) (f : Bool → Bool)
    (h : E.run_program (step_addr E s).1.1 1 false true (step_addr E s).1.2 = ((hit, c), p)) :
    (step E s).ret = c ∧
      run (E.mapFlag f) s = run E s ∧
      conti (E.mapFlag f) s = conti E s := by
  refine ⟨?_, rfl, ?_⟩
  · simp [step, h]
  · by_cases hpc : s.PC = 0
    · simp [conti, hpc]
    · simp [conti, hpc, Engine.mapFlag]

/-- C4 refuted as stated: two engines that differ only in the flag they report (one
continuable, one not) make `run()` and `conti()` hand back exactly the same thing, so the
caller of `run()` or `conti()` cannot receive the flag. -/
theorem run_conti_swallow_flag :
    ((toyEngine false true 4).run_program 4194304 2147483647 false false fresh).1.2 = true ∧
      ((toyEngine false false 4).run_program 4194304 2147483647 false false fresh).1.2
        = false ∧
      run (toyEngine false true 4) fresh = run (toyEngine false false 4) fresh ∧
      conti (toyEngine false true 4) paused = conti (toyEngine false false 4) paused ∧
      ¬ ∃ decode : Outcome Unit Unit → Bool,
          decode (run (toyEngine false true 4) fresh) = true ∧
          decode (run (toyEngine false false 4) fresh) = false := by
  refine ⟨rfl, rfl, rfl, rfl, ?_⟩
  rintro ⟨decode, h1, h2⟩
  have e : run (toyEngine false true 4) fresh = run (toyEngine false false 4) fresh := rfl
  rw [e, h2] at h1
  exact Bool.noConfusion h1

/-- C5, as the code has it: `step()` prints the lone newline exactly when the engine
reported non-continuable; `run()` and `conti()` (with `PC` not 0) print it after every
engine invocation, whatever the engine reported. -/
theorem newline_notification {ε : Type} (E : Engine ε) (s s' : Machine ε) (hpc : s'.PC ≠ 0)
    (hit c : Bool) (p : Machine ε)
    (h : E.run_program (step_addr E s).1.1 1 false true (step_addr E s).1.2 = ((hit, c), p)) :
    ("\n" ∈ printed (step E s).trace ↔ c = false) ∧
      "\n" ∈ printed (run E s).trace ∧
      "\n" ∈ printed (conti E s').trace := by
  refine ⟨?_, ?_, ?_⟩
  · rw [step_printed E s hit c p h]
    have hne := bp_message_ne_newline p.PC
    cases hit <;> cases c <;> simp [Ne.symm hne]
  · rw [run_printed E s _ _ _ rfl]
    simp
  · rw [conti_printed E s' hpc _ _ _ rfl]
    simp

/-- C5 refuted as stated: an engine that reports "continuable" and no breakpoint; `run()`
from the fresh machine and `conti()` from a paused one still print the lone newline. -/
theorem run_conti_newline_when_continuable :
    ((toyEngine false true 4).run_program 4194304 2147483647 false false fresh).1.2 = true ∧
      printed (run (toyEngine false true 4) fresh).trace = ["\n"] ∧
      ((toyEngine false true 4).run_program 4194316 2147483647 false true paused).1.2
        = true ∧
      printed (conti (toyEngine false true 4) paused).trace = ["\n"] ∧
      ¬ ("\n" ∈ printed (run (toyEngine false true 4) fresh).trace ↔
          ((toyEngine false true 4).run_program 4194304 2147483647 false false fresh).1.2
            = false) := by
  refine ⟨rfl, rfl, rfl, rfl, ?_⟩
  have hp : printed (run (toyEngine false true 4) fresh).trace = ["\n"] := rfl
  have hf : ((toyEngine false true 4).run_program 4194304 2147483647 false false
      fresh).1.2 = true := rfl
  rw [hp, hf]
  simp

theorem bp_report_shape (hit : Bool) (a : mem_addr) (tail : List String)
    (ht : ∀ x ∈ tail, x = "\n") :
    (bp_message a ∈ (if hit then [bp_message a] else []) ++ tail ↔ hit = true) ∧
      ∀ text ∈ (if hit then [bp_message a] else []) ++ tail,
        text ≠ "\n" → text = bp_message a := by
  have hne := bp_message_ne_newline a
  constructor
  · cases hit
    · simp only [Bool.false_eq_true, if_false, List.nil_append, iff_false]
      intro hm
      exact hne (ht _ hm)
    · simp
  · intro text hm hx
    rcases List.mem_append.1 hm with h | h
    · cases hit
      · simp at h
      · simpa using h
    · exact absurd (ht _ h) hx

/-- C6: for `step()`, `run()` and `conti()` (with `PC` not 0) the text
"Breakpoint encountered at 0x<addr>" is printed exactly when `run_program` returned true,
nothing else but the lone newline is printed, `<addr>` is `PC` as the engine left it,
written as exactly 8 hexadecimal digits that read back as that 32-bit value; and when `PC`
is the sentinel and the engine halts on a breakpoint at the entry address, `step()` names
the entry address. -/
theorem breakpoint_notification {ε : Type} (E : Engine ε) (s s' : Machine ε)
    (hpc : s'.PC ≠ 0) (hs cs hr cr hc cc : Bool) (ps pr pc : Machine ε)
    (h1 : E.run_program (step_addr E s).1.1 1 false true (step_addr E s).1.2 = ((hs, cs), ps))
    (h2 : E.run_program (E.starting_address s).1 E.DEFAULT_RUN_STEPS false false
      (E.starting_address s).2 = ((hr, cr), pr))
    (h3 : E.run_program s'.PC E.DEFAULT_RUN_STEPS false true s' = ((hc, cc), pc)) :
    ((bp_message ps.PC ∈ printed (step E s).trace ↔ hs = true) ∧
        ∀ text ∈ printed (step E s).trace, text ≠ "\n" → text = bp_message ps.PC) ∧
      ((bp_message pr.PC ∈ printed (run E s).trace ↔ hr = true) ∧
        ∀ text ∈ printed (run E s).trace, text ≠ "\n" → text = bp_message pr.PC) ∧
      ((bp_message pc.PC ∈ printed (conti E s').trace ↔ hc = true) ∧
        ∀ text ∈ printed (conti E s').trace, text ≠ "\n" → text = bp_message pc.PC) ∧
      (∀ v : mem_addr,
        bp_message v = "Breakpoint encountered at 0x" ++ String.mk (fmt_08x v) ++ "\n" ∧
        (fmt_08x v).length = 8 ∧
        hexVal (fmt_08x v) 0 = some (v % 4294967296)) ∧
      (s.PC = 0 → hs = true → ps.PC = (E.starting_address s).1 →
        bp_message (E.starting_address s).1 ∈ printed (step E s).trace) := by
  have hstep := bp_report_shape hs ps.PC (if cs then [] else ["\n"])
    (by cases cs <;> simp)
  rw [← step_printed E s hs cs ps h1] at hstep
  have hrun := bp_report_shape hr pr.PC ["\n"] (by simp)
  rw [← run_printed E s hr cr pr h2] at hrun
  have hconti := bp_report_shape hc pc.PC ["\n"] (by simp)
  rw [← conti_printed E s' hpc hc cc pc h3] at hconti
  refine ⟨hstep, hrun, hconti, fun v => ⟨rfl, fmt_08x_length v, fmt_08x_value v⟩, ?_⟩
  intro _ hhit hentry
  rw [← hentry]
  exact hstep.1.2 hhit

/-- C10, as the code has it: `conti()` skips the engine exactly when `PC` is 0, whatever
any earlier invocation reported; with `PC` not 0 it calls `run_program` once more at `PC`
with `DEFAULT_RUN_STEPS` and leaves the state that call produces. -/
theorem conti_short_circuits_only_on_sentinel {ε : Type} (E : Engine ε) (s : Machine ε) :
    (invocations (conti E s).trace = [] ↔ s.PC = 0) ∧
      invocations (conti E s).trace
        = (if s.PC = 0 then []
           else [Event.run_program s.PC E.DEFAULT_RUN_STEPS false true]) ∧
      (conti E s).m
        = (if s.PC = 0 then s
           else (E.run_program s.PC E.DEFAULT_RUN_STEPS false true s).2) := by
  by_cases h : s.PC = 0
  · simp [conti, h, invocations_nil]
  · simp [conti, h, invocations_append, invocations_report_bp, invocations_nil,
      invocations_cons_run, invocations_cons_sa, invocations_cons_printf]

/-- C10 refuted as stated: an engine that reports non-continuable and leaves `PC` behind
the instruction it ran.  After `step()` has returned "not continuable" with
`PC = 0x00400004`, `conti()` calls `run_program` again and `PC` moves on. -/
theorem conti_after_halt_invokes_engine :
    (step (toyEngine false false 4) fresh).ret = false ∧
      (step (toyEngine false false 4) fresh).m.PC = 4194308 ∧
      invocations (conti (toyEngine false false 4) (step (toyEngine false false 4) fresh).m).trace
        = [Event.run_program 4194308 2147483647 false true] ∧
      (conti (toyEngine false false 4) (step (toyEngine false false 4) fresh).m).m.PC
        = 4194312 := by
  refine ⟨rfl, rfl, rfl, rfl⟩

/-! ### Register export -/

/-- C7, as the code has it: whatever the static array held before, `getSpecialRegVals()`
returns exactly 12 values, in the order `PC`, `CP0_EPC`, `CP0_Cause`, `CP0_BadVAddr`,
`CP0_Status`, `HI`, `LO` and then the five floating-point control registers `FIR`,
`FCSR`, `FCCR`, `FEXR`, `FENR`, each equal to the register at the time of the call. -/
theorem getSpecialRegVals_snapshot {ε : Type} (s : Machine ε) (prior : Nat → Nat) :
    (getSpecialRegVals s prior).1
        = [s.PC, s.CP0_EPC, s.CP0_Cause, s.CP0_BadVAddr, s.CP0_Status, s.HI, s.LO,
           s.FIR, s.FCSR, s.FCCR, s.FEXR, s.FENR] ∧
      (getSpecialRegVals s prior).1.length = 12 ∧
      ((getSpecialRegVals s prior).1.drop 7).length = 5 := by
  refine ⟨rfl, rfl, rfl⟩

/-- C7 refuted as stated: on a machine whose special registers hold 100 to 111 the
export is the seven values 100 to 106 followed by five floating-point control values,
107 to 111; it is not seven values followed by four. -/
theorem special_regs_five_fp_controls :
    (getSpecialRegVals specimen (fun _ => 0)).1
        = [100, 101, 102, 103, 104, 105, 106, 107, 108, 109, 110, 111] ∧
      ((getSpecialRegVals specimen (fun _ => 0)).1.drop 7).length = 5 ∧
      ¬ ∃ a b c d : Nat,
          (getSpecialRegVals specimen (fun _ => 0)).1
            = [100, 101, 102, 103, 104, 105, 106, a, b, c, d] := by
  refine ⟨rfl, rfl, ?_⟩
  rintro ⟨a, b, c, d, h⟩
  have hl := congrArg List.length h
  have h12 : (getSpecialRegVals specimen (fun _ => 0)).1.length = 12 := rfl
  rw [h12] at hl
  simp at hl

theorem typed_memory_view_get {α : Type} (n : Nat) (p : Nat → α) (k : Nat) :
    (typed_memory_view n p)[k]? = if k < n then some (p k) else none := by
  unfold typed_memory_view
  by_cases h : k < n
  · simp [h, List.getElem?_map, List.getElem?_range]
  · simp [h]
    omega

theorem as_float_eq (b : Nat → Nat) (k : Nat) :
    as_float b k = [b (4 * k), b (4 * k + 1), b (4 * k + 2), b (4 * k + 3)] := rfl

theorem as_double_eq (b : Nat → Nat) (k : Nat) :
    as_double b k = [b (8 * k), b (8 * k + 1), b (8 * k + 2), b (8 * k + 3),
      b (8 * k + 4), b (8 * k + 5), b (8 * k + 6), b (8 * k + 7)] := rfl

theorem as_double_split (b : Nat → Nat) (j : Nat) :
    as_double b j = as_float b (2 * j) ++ as_float b (2 * j + 1) := by
  have h1 : 4 * (2 * j) = 8 * j := by omega
  have h2 : 4 * (2 * j + 1) = 8 * j + 4 := by omega
  simp [as_float_eq, as_double_eq, h1, h2]

theorem view_store_in (n w k : Nat) (val : List Nat) (b : Nat → Nat) (t : Nat)
    (hk : k < n) (ht : t < w) :
    view_store n w k val b (w * k + t) = val.getD t 0 := by
  simp [view_store, hk, ht]

theorem view_store_out (n w k : Nat) (val : List Nat) (b : Nat → Nat) (a : Nat)
    (ha : a < w * k ∨ w * k + w ≤ a) :
    view_store n w k val b a = b a := by
  unfold view_store
  split
  · have : ¬ (w * k ≤ a ∧ a < w * k + w) := by omega
    simp [this]
  · rfl

theorem bytes4 (val : List Nat) (h : val.length = 4) :
    [val.getD 0 0, val.getD 1 0, val.getD 2 0, val.getD 3 0] = val := by
  match val, h with
  | [a, b, c, d], _ => rfl

theorem bytes8 (val : List Nat) (h : val.length = 8) :
    [val.getD 0 0, val.getD 1 0, val.getD 2 0, val.getD 3 0] = val.take 4 ∧
      [val.getD 4 0, val.getD 5 0, val.getD 6 0, val.getD 7 0] = val.drop 4 := by
  match val, h with
  | [a, b, c, d, e, f, g, i], _ => exact ⟨rfl, rfl⟩

theorem as_float_store_same (b : Nat → Nat) (i : Nat) (val : List Nat) (hi : i < 32)
    (hv : val.length = 4) : as_float (view_store 32 4 i val b) i = val := by
  rw [as_float_eq]
  have h0 := view_store_in 32 4 i val b 0 hi (by norm_num)
  have h1 := view_store_in 32 4 i val b 1 hi (by norm_num)
  have h2 := view_store_in 32 4 i val b 2 hi (by norm_num)
  have h3 := view_store_in 32 4 i val b 3 hi (by norm_num)
  simp only [Nat.add_zero] at h0
  rw [h0, h1, h2, h3]
  exact bytes4 val hv

theorem as_float_store_other (b : Nat → Nat) (i k : Nat) (val : List Nat) (hk : k ≠ i) :
    as_float (view_store 32 4 i val b) k = as_float b k := by
  rw [as_float_eq, as_float_eq]
  rw [view_store_out _ _ _ _ _ (4 * k) (by omega),
    view_store_out _ _ _ _ _ (4 * k + 1) (by omega),
    view_store_out _ _ _ _ _ (4 * k + 2) (by omega),
    view_store_out _ _ _ _ _ (4 * k + 3) (by omega)]

theorem as_double_store_float_other (b : Nat → Nat) (i k : Nat) (val : List Nat)
    (hk : i / 2 ≠ k) : as_double (view_store 32 4 i val b) k = as_double b k := by
  rw [as_double_split, as_double_split,
    as_float_store_other b i (2 * k) val (by omega),
    as_float_store_other b i (2 * k + 1) val (by omega)]

theorem as_float_store_double_lo (b : Nat → Nat) (j : Nat) (val : List Nat) (hj : j < 16)
    (hv : val.length = 8) : as_float (view_store 16 8 j val b) (2 * j) = val.take 4 := by
  rw [as_float_eq]
  have e : 4 * (2 * j) = 8 * j := by omega
  have h0 := view_store_in 16 8 j val b 0 hj (by norm_num)
  have h1 := view_store_in 16 8 j val b 1 hj (by norm_num)
  have h2 := view_store_in 16 8 j val b 2 hj (by norm_num)
  have h3 := view_store_in 16 8 j val b 3 hj (by norm_num)
  simp only [Nat.add_zero] at h0
  rw [e, h0, h1, h2, h3]
  exact (bytes8 val hv).1

theorem as_float_store_double_hi (b : Nat → Nat) (j : Nat) (val : List Nat) (hj : j < 16)
    (hv : val.length = 8) : as_float (view_store 16 8 j val b) (2 * j + 1) = val.drop 4 := by
  rw [as_float_eq]
  have e0 : 4 * (2 * j + 1) = 8 * j + 4 := by omega
  have e1 : 4 * (2 * j + 1) + 1 = 8 * j + 5 := by omega
  have e2 : 4 * (2 * j + 1) + 2 = 8 * j + 6 := by omega
  have e3 : 4 * (2 * j + 1) + 3 = 8 * j + 7 := by omega
  have h0 := view_store_in 16 8 j val b 4 hj (by norm_num)
  have h1 := view_store_in 16 8 j val b 5 hj (by norm_num)
  have h2 := view_store_in 16 8 j val b 6 hj (by norm_num)
  have h3 := view_store_in 16 8 j val b 7 hj (by norm_num)
  rw [e1, e2, e3, e0, h0, h1, h2, h3]
  exact (bytes8 val hv).2

theorem as_float_store_double_other (b : Nat → Nat) (j i : Nat) (val : List Nat)
    (hi : i / 2 ≠ j) : as_float (view_store 16 8 j val b) i = as_float b i := by
  rw [as_float_eq, as_float_eq]
  rw [view_store_out _ _ _ _ _ (4 * i) (by omega),
    view_store_out _ _ _ _ _ (4 * i + 1) (by omega),
    view_store_out _ _ _ _ _ (4 * i + 2) (by omega),
    view_store_out _ _ _ _ _ (4 * i + 3) (by omega)]

theorem getFloatRegVals_get {ε : Type} (s : Machine ε) (k : Nat) :
    (getFloatRegVals s)[k]? = if k < 32 then some (as_float s.FPR k) else none :=
  typed_memory_view_get 32 _ k

theorem getDoubleRegVals_get {ε : Type} (s : Machine ε) (k : Nat) :
    (getDoubleRegVals s)[k]? = if k < 16 then some (as_double s.FPR k) else none :=
  typed_memory_view_get 16 _ k

/-- C8: the single view (32 elements) and the double view (16 elements) read the same 128
bytes of the bank; for every content and every `j < 16`, the 8 bytes of
double element `j` are the 4 bytes of single element `2j` followed by the 4 bytes of single
element `2j+1`; a store through the single view shows in double element `j` at the
matching half and in no other double element, and a store through the double view shows
in single elements `2j` and `2j+1` and in no other single element. -/
theorem float_double_views_alias {ε : Type} (s : Machine ε) (j : Nat) (hj : j < 16)
    (fv dv : List Nat) (hfv : fv.length = 4) (hdv : dv.length = 8) :
    (getFloatRegVals s).length = 32 ∧ (getDoubleRegVals s).length = 16 ∧
      (getFloatRegVals s).flatten = (List.range 128).map s.FPR ∧
      (getDoubleRegVals s).flatten = (List.range 128).map s.FPR ∧
      (∃ lo hi : List Nat,
        (getFloatRegVals s)[2 * j]? = some lo ∧ (getFloatRegVals s)[2 * j + 1]? = some hi ∧
        lo.length = 4 ∧ hi.length = 4 ∧
        (getDoubleRegVals s)[j]? = some (lo ++ hi)) ∧
      (∃ hi : List Nat, (getFloatRegVals s)[2 * j + 1]? = some hi ∧
        (getDoubleRegVals (store_float s (2 * j) fv))[j]? = some (fv ++ hi)) ∧
      (∃ lo : List Nat, (getFloatRegVals s)[2 * j]? = some lo ∧
        (getDoubleRegVals (store_float s (2 * j + 1) fv))[j]? = some (lo ++ fv)) ∧
      (∀ i k : Nat, i / 2 ≠ k →
        (getDoubleRegVals (store_float s i fv))[k]? = (getDoubleRegVals s)[k]?) ∧
      (getFloatRegVals (store_double s j dv))[2 * j]? = some (dv.take 4) ∧
      (getFloatRegVals (store_double s j dv))[2 * j + 1]? = some (dv.drop 4) ∧
      (∀ i : Nat, i / 2 ≠ j →
        (getFloatRegVals (store_double s j dv))[i]? = (getFloatRegVals s)[i]?) := by
  have hlo : 2 * j < 32 := by omega
  have hhi : 2 * j + 1 < 32 := by omega
  have e0 : 2 * j / 2 = j := by omega
  have e1 : (2 * j + 1) / 2 = j := by omega
  refine ⟨rfl, rfl, rfl, rfl,
    ⟨as_float s.FPR (2 * j), as_float s.FPR (2 * j + 1), ?_, ?_, rfl, rfl, ?_⟩,
    ⟨as_float s.FPR (2 * j + 1), ?_, ?_⟩, ⟨as_float s.FPR (2 * j), ?_, ?_⟩, ?_, ?_, ?_, ?_⟩
  · simp [getFloatRegVals_get, hlo]
  · simp [getFloatRegVals_get, hhi]
  · simp [getDoubleRegVals_get, hj, as_double_split]
  · simp [getFloatRegVals_get, hhi]
  · rw [getDoubleRegVals_get, if_pos hj]
    simp only [store_float]
    rw [as_double_split, as_float_store_same _ _ _ hlo hfv,
      as_float_store_other _ _ _ _ (by omega)]
  · simp [getFloatRegVals_get, hlo]
  · rw [getDoubleRegVals_get, if_pos hj]
    simp only [store_float]
    rw [as_double_split, as_float_store_same _ _ _ hhi hfv,
      as_float_store_other _ _ _ _ (by omega)]
  · intro i k hik
    rw [getDoubleRegVals_get, getDoubleRegVals_get]
    simp only [store_float]
    rw [as_double_store_float_other _ _ _ _ hik]
  · rw [getFloatRegVals_get, if_pos hlo]
    simp only [store_double]
    rw [as_float_store_double_lo _ _ _ hj hdv]
  · rw [getFloatRegVals_get, if_pos hhi]
    simp only [store_double]
    rw [as_float_store_double_hi _ _ _ hj hdv]
  · intro i hi
    rw [getFloatRegVals_get, getFloatRegVals_get]
    simp only [store_double]
    rw [as_float_store_double_other _ _ _ _ hi]

/-- C8 exercised on the bank holding byte `a` at offset `a`, at double element 3. -/
theorem float_double_views_alias_witness :
    3 < 16 ∧ fv4.length = 4 ∧ dv8.length = 8 ∧
      (getFloatRegVals ramp).length = 32 ∧ (getDoubleRegVals ramp).length = 16 ∧
      (getFloatRegVals ramp).flatten = (List.range 128).map ramp.FPR ∧
      (getDoubleRegVals ramp).flatten = (List.range 128).map ramp.FPR ∧
      (∃ lo hi : List Nat,
        (getFloatRegVals ramp)[2 * 3]? = some lo ∧ (getFloatRegVals ramp)[2 * 3 + 1]? = some hi ∧
        lo.length = 4 ∧ hi.length = 4 ∧
        (getDoubleRegVals ramp)[3]? = some (lo ++ hi)) ∧
      (∃ hi : List Nat, (getFloatRegVals ramp)[2 * 3 + 1]? = some hi ∧
        (getDoubleRegVals (store_float ramp (2 * 3) fv4))[3]? = some (fv4 ++ hi)) ∧
      (∃ lo : List Nat, (getFloatRegVals ramp)[2 * 3]? = some lo ∧
        (getDoubleRegVals (store_float ramp (2 * 3 + 1) fv4))[3]? = some (lo ++ fv4)) ∧
      (∀ i k : Nat, i / 2 ≠ k →
        (getDoubleRegVals (store_float ramp i fv4))[k]? = (getDoubleRegVals ramp)[k]?) ∧
      (getFloatRegVals (store_double ramp 3 dv8))[2 * 3]? = some (dv8.take 4) ∧
      (getFloatRegVals (store_double ramp 3 dv8))[2 * 3 + 1]? = some (dv8.drop 4) ∧
      (∀ i : Nat, i / 2 ≠ 3 →
        (getFloatRegVals (store_double ramp 3 dv8))[i]? = (getFloatRegVals ramp)[i]?) :=
  ⟨by decide, rfl, rfl,
    float_double_views_alias ramp 3 (by decide) fv4
      dv8 rfl rfl⟩

/-! ### Segment export -/

/-- C9: for every range, machine state and prior content of the static stream, also
after any sequence of earlier exports, `getSegment(from, to)` returns exactly the text the
formatter produces for that range on an empty stream; exporting the same range twice
over the same machine state returns equal strings. -/
theorem getSegment_is_fresh_listing {ε : Type} (E : Engine ε) (s : Machine ε)
    (ss : str_stream) (from_ to_ : mem_addr)
    (earlier : List (Machine ε × mem_addr × mem_addr)) :
    (getSegment E s ss from_ to_).1 = ss_to_string (E.format_insts s ⟨[]⟩ from_ to_) ∧
      (getSegment E s (after_exports E ss earlier) from_ to_).1
        = ss_to_string (E.format_insts s ⟨[]⟩ from_ to_) ∧
      (getSegment E s (getSegment E s ss from_ to_).2 from_ to_).1
        = (getSegment E s ss from_ to_).1 := by
  refine ⟨rfl, rfl, rfl⟩

theorem getSegment_example :
    (getSegment (toyEngine false true 4) fresh ⟨['o', 'l', 'd']⟩ 4194304 4194312).1
      = "00400000\n00400004\n" := by
  rfl

/-! ### The theorems with hypotheses, exercised on concrete machines -/

/-- C2 exercised on the fresh machine. -/
theorem conti_sentinel_noop_witness :
    fresh.PC = 0 ∧
      ((conti (toyEngine true true 4) fresh).trace = [] ∧
        invocations (conti (toyEngine true true 4) fresh).trace = [] ∧
        printed (conti (toyEngine true true 4) fresh).trace = [] ∧
        (conti (toyEngine true true 4) fresh).m = fresh) :=
  ⟨rfl, conti_sentinel_noop (toyEngine true true 4) fresh rfl⟩

/-- C3 exercised: the entry address of the small engine is `0x00400000`; `run()` from
the machine paused at `0x0040000c` restarts at the entry address and leaves `PC` at
`0x00400004`, `conti()` resumes at the paused `PC` and leaves it at `0x00400010`. -/
theorem run_conti_invoke_engine_once_witness :
    configured_entry (toyEngine false true 4) 4194304 ∧ paused.PC ≠ 0 ∧
      (run (toyEngine false true 4) paused).m.PC = 4194308 ∧
      (conti (toyEngine false true 4) paused).m.PC = 4194320 ∧
      (invocations (run (toyEngine false true 4) fresh).trace
          = [Event.run_program ((toyEngine false true 4).starting_address fresh).1
              2147483647 false false] ∧
        invocations (run (toyEngine false true 4) fresh).trace
          = [Event.run_program 4194304 2147483647 false false] ∧
        (run (toyEngine false true 4) fresh).m
          = ((toyEngine false true 4).run_program 4194304 2147483647 false false
              ((toyEngine false true 4).starting_address fresh).2).2 ∧
        invocations (run (toyEngine false true 4) paused).trace
          = [Event.run_program 4194304 2147483647 false false] ∧
        (run (toyEngine false true 4) paused).m
          = ((toyEngine false true 4).run_program 4194304 2147483647 false false
              ((toyEngine false true 4).starting_address paused).2).2 ∧
        invocations (conti (toyEngine false true 4) paused).trace
          = [Event.run_program 4194316 2147483647 false true] ∧
        (conti (toyEngine false true 4) paused).m
          = ((toyEngine false true 4).run_program 4194316 2147483647 false true
              paused).2) :=
  ⟨fun _ => rfl, by decide, rfl, rfl,
    run_conti_invoke_engine_once (toyEngine false true 4) 4194304 fresh paused
      (fun _ => rfl) (by decide)⟩

/-- C4 exercised on an engine reporting non-continuable, with the flag flipped. -/
theorem step_returns_flag_run_conti_drop_it_witness :
    (toyEngine false false 4).run_program (step_addr (toyEngine false false 4) paused).1.1
        1 false true (step_addr (toyEngine false false 4) paused).1.2
        = ((false, false), { paused with PC := 4194320 }) ∧
      ((step (toyEngine false false 4) paused).ret = false ∧
        run ((toyEngine false false 4).mapFlag not) paused
          = run (toyEngine false false 4) paused ∧
        conti ((toyEngine false false 4).mapFlag not) paused
          = conti (toyEngine false false 4) paused) :=
  ⟨rfl, step_returns_flag_run_conti_drop_it (toyEngine false false 4) paused false false
    { paused with PC := 4194320 } not rfl⟩

/-- C5 exercised on an engine reporting continuable. -/
theorem newline_notification_witness :
    paused.PC ≠ 0 ∧
      (toyEngine false true 4).run_program (step_addr (toyEngine false true 4) fresh).1.1
        1 false true (step_addr (toyEngine false true 4) fresh).1.2
        = ((false, true), { fresh with PC := 4194308 }) ∧
      (("\n" ∈ printed (step (toyEngine false true 4) fresh).trace ↔ true = false) ∧
        "\n" ∈ printed (run (toyEngine false true 4) fresh).trace ∧
        "\n" ∈ printed (conti (toyEngine false true 4) paused).trace) :=
  ⟨by decide, rfl, newline_notification (toyEngine false true 4) fresh paused (by decide)
    false true { fresh with PC := 4194308 } rfl⟩

/-- C6 exercised on an engine that halts on a breakpoint at the start address: from the
fresh machine `step()` prints the message naming the entry address `0x00400000`. -/
theorem breakpoint_notification_witness :
    paused.PC ≠ 0 ∧
      bpEngine.run_program (step_addr bpEngine fresh).1.1 1 false true
        (step_addr bpEngine fresh).1.2 = ((true, true), { fresh with PC := 4194304 }) ∧
      bpEngine.run_program (bpEngine.starting_address fresh).1 bpEngine.DEFAULT_RUN_STEPS
        false false (bpEngine.starting_address fresh).2
        = ((true, true), { fresh with PC := 4194304 }) ∧
      bpEngine.run_program paused.PC bpEngine.DEFAULT_RUN_STEPS false true paused
        = ((true, true), paused) ∧
      printed (step bpEngine fresh).trace = ["Breakpoint encountered at 0x00400000\n"] ∧
      (((bp_message 4194304 ∈ printed (step bpEngine fresh).trace ↔ true = true) ∧
          ∀ text ∈ printed (step bpEngine fresh).trace,
            text ≠ "\n" → text = bp_message 4194304) ∧
        ((bp_message 4194304 ∈ printed (run bpEngine fresh).trace ↔ true = true) ∧
          ∀ text ∈ printed (run bpEngine fresh).trace,
            text ≠ "\n" → text = bp_message 4194304) ∧
        ((bp_message 4194316 ∈ printed (conti bpEngine paused).trace ↔ true = true) ∧
          ∀ text ∈ printed (conti bpEngine paused).trace,
            text ≠ "\n" → text = bp_message 4194316) ∧
        (∀ v : mem_addr,
          bp_message v = "Breakpoint encountered at 0x" ++ String.mk (fmt_08x v) ++ "\n" ∧
          (fmt_08x v).length = 8 ∧
          hexVal (fmt_08x v) 0 = some (v % 4294967296)) ∧
        (fresh.PC = 0 → true = true → 4194304 = (bpEngine.starting_address fresh).1 →
          bp_message (bpEngine.starting_address fresh).1
            ∈ printed (step bpEngine fresh).trace)) :=
  ⟨by decide, rfl, rfl, rfl, rfl,
    breakpoint_notification bpEngine fresh paused (by decide) true true true true true true
      { fresh with PC := 4194304 } { fresh with PC := 4194304 } paused rfl rfl rfl⟩

end JsSpim
